import Mathlib

/-
  Verification of the balance-change derivation core of the indexer
  (src/db_adapters/balance_changes.rs).

  Shallow embedding notes:
  * u128 values are modelled as Nat; theorems carry the well-formedness
    hypothesis `< 2 ^ 128` where it matters.  Rust release-mode wrapping
    semantics are modelled explicitly: the cast `as i128` wraps into the
    signed 128-bit range, i128 subtraction/negation wraps, u128 subtraction
    wraps, and the cast `as i32` wraps into the signed 32-bit range.
  * The async control flow is linearized: each shard's processing threads an
    explicit cache state, and the block-level try_join_all over the shard
    futures is modelled as sequential left-to-right threading; its
    error/success structure (any failure fails the block, success requires
    every shard to succeed) is exactly that of try_join_all.
  * External collaborators (the archival RPC endpoint behind
    get_account_view_for_block_hash, and the database insert behind
    models::chunked_insert) are oracle functions carried in a World record.
  * The panic on the five unhandled state-change causes is modelled as the
    error value ProcError.panicDebug; anyhow errors from the RPC and the
    database are ProcError.resolution / ProcError.storage.
  * BigDecimal values built from exact integer strings are modelled as Int.
-/

set_option maxRecDepth 8000

namespace IndexerBalances

/-- Two's-complement wrap of an integer into the signed 128-bit range,
the behaviour of Rust release-mode i128 arithmetic overflow. -/
def wrapI128 (z : Int) : Int := (z + 2 ^ 127) % 2 ^ 128 - 2 ^ 127

/-- The Rust cast from u128 to i128 (`x as i128`): two's-complement reinterpretation. -/
def toI128 (n : Nat) : Int := wrapI128 (n : Int)

/-- Wrapping i128 subtraction (release-mode semantics of `a - b` on i128). -/
def i128sub (a b : Int) : Int := wrapI128 (a - b)

/-- Wrapping i128 negation (release-mode semantics of `-a` on i128). -/
def i128neg (a : Int) : Int := wrapI128 (-a)

/-- Wrapping u128 subtraction (release-mode semantics of `a - b` on u128),
assuming both arguments are in range. -/
def u128sub (a b : Nat) : Nat := (a + 2 ^ 128 - b) % 2 ^ 128

/-- The Rust cast `i as i32` applied to a nonnegative machine integer
(usize loop counter or u64 shard id): two's-complement wrap. -/
def wrapI32 (n : Nat) : Int := ((n : Int) + 2 ^ 31) % 2 ^ 32 - 2 ^ 31

/-- near_indexer_primitives::views::AccountView, restricted to the fields the
code reads: amount (liquid) and locked balance, both u128. -/
structure AccountView where
  amount : Nat
  locked : Nat
deriving DecidableEq

/-- crate::Balances: a pair (liquid, locked) of u128 balances. -/
abbrev Balances := Nat × Nat

/-- near_indexer_primitives::views::StateChangeCauseView.  Hash payloads are
modelled as strings. -/
inductive StateChangeCauseView where
  | notWritableToDisk
  | initialState
  | transactionProcessing (txHash : String)
  | actionReceiptProcessingStarted (receiptHash : String)
  | actionReceiptGasReward (receiptHash : String)
  | receiptProcessing (receiptHash : String)
  | postponedReceipt (receiptHash : String)
  | updatedDelayedReceipts
  | validatorAccountsUpdate
  | migration
  | resharding
deriving DecidableEq

/-- near_indexer_primitives::views::StateChangeValueView: the code only
distinguishes AccountUpdate from every other constructor (which it skips),
so the other constructors are collapsed into `other`. -/
inductive StateChangeValueView where
  | accountUpdate (accountId : String) (account : AccountView)
  | other
deriving DecidableEq

/-- near_indexer_primitives::views::StateChangeWithCauseView. -/
structure StateChangeWithCauseView where
  cause : StateChangeCauseView
  value : StateChangeValueView
deriving DecidableEq

/-- The part of a transaction execution outcome the code reads:
outcome.execution_outcome.outcome.{executor_id, tokens_burnt}. -/
structure ExecutionOutcomeView where
  executor_id : String
  tokens_burnt : Nat
deriving DecidableEq

/-- near_indexer_primitives::IndexerTransactionWithOutcome, restricted to the
fields the code reads: transaction.transaction.hash and the outcome. -/
structure IndexerTransactionWithOutcome where
  hash : String
  outcome : ExecutionOutcomeView
deriving DecidableEq

/-- near_indexer_primitives::views::BlockHeaderView, restricted to the fields
the code reads: timestamp (u64) and prev_hash. -/
structure BlockHeaderView where
  timestamp : Nat
  prev_hash : String
deriving DecidableEq

/-- near_indexer_primitives::IndexerShard, restricted to the fields the code
reads: shard_id (u64), state_changes, and chunk (of which only the
transaction list is used, hence Option (List _)). -/
structure IndexerShard where
  shard_id : Nat
  state_changes : List StateChangeWithCauseView
  chunk : Option (List IndexerTransactionWithOutcome)
deriving DecidableEq

/-- models::balance_changes::BalanceChange: one output row. -/
structure BalanceChange where
  block_timestamp : Int
  receipt_id : Option String
  transaction_hash : Option String
  affected_account_id : String
  involved_account_id : Option String
  direction : String
  cause : String
  delta_liquid_amount : Int
  absolute_liquid_amount : Int
  delta_locked_amount : Int
  absolute_locked_amount : Int
  shard_id : Int
  index_in_chunk : Int
deriving DecidableEq

/-- The errors the processing can surface: the panic on the five unhandled
state-change causes, an anyhow error from the remote balance query, and an
anyhow error from a database sub-batch insert. -/
inductive ProcError where
  | panicDebug
  | resolution (msg : String)
  | storage (msg : String)
deriving DecidableEq

/-- The state threaded through processing: the crate::BalancesCache contents
(an association list mapping account id to its cached balances; the bounded
LRU capacity of cached::SizedCache is modelled as unbounded, i.e. the
no-eviction case), plus a log of the remote queries performed, recorded as
(account id, block hash) pairs, used to state the exactly-once property. -/
structure CacheState where
  cache : List (String × Balances)
  queries : List (String × String)
deriving DecidableEq

/-- cached::Cached::cache_get on the association-list model. -/
def cacheGet (c : List (String × Balances)) (a : String) : Option Balances :=
  (c.find? (fun p => p.1 == a)).map (fun p => p.2)

/-- cached::Cached::cache_set on the association-list model: replaces any
existing entry for the key. -/
def cacheSet (c : List (String × Balances)) (a : String) (v : Balances) :
    List (String × Balances) :=
  (a, v) :: c.filter (fun p => p.1 != a)

/-- The external collaborators: rpc models get_account_view_for_block_hash
(the point-in-time balance query against the archival endpoint, already
projected to the (amount, locked) pair the caller extracts; any RPC failure
or non-ViewAccount response kind is an error), and db models one sub-batch
insert performed inside models::chunked_insert. -/
structure World where
  rpc : String → String → Except String Balances
  db : List BalanceChange → Except String Unit

/-- get_previous_balance: under the cache lock, look the account up; on a
miss, query the remote service at the previous block hash, store the result
in the cache, and return it.  The query log records the remote call. -/
def get_previous_balance (w : World) (account_id : String)
    (prev_block_hash : String) (st : CacheState) :
    Except ProcError (Balances × CacheState) :=
  match cacheGet st.cache account_id with
  | some balances => .ok (balances, st)
  | none =>
    match w.rpc account_id prev_block_hash with
    | .error e => .error (.resolution e)
    | .ok balances =>
      .ok (balances,
        { cache := cacheSet st.cache account_id balances,
          queries := st.queries ++ [(account_id, prev_block_hash)] })

/-- set_new_balances: under the cache lock, overwrite the account's entry. -/
def set_new_balances (account_id : String) (balances : Balances)
    (st : CacheState) : CacheState :=
  { st with cache := cacheSet st.cache account_id balances }

/-- Modelled from the spec: the PrintEnum::print implementation for
StateChangeCauseView lives in crate::models, which is not part of the given
source; the spec says the emitted cause is "the textual form of the
triggering cause".  Only validatorAccountsUpdate ever reaches this call in
the given code. -/
def causePrint : StateChangeCauseView → String
  | .notWritableToDisk => "NOT_WRITABLE_TO_DISK"
  | .initialState => "INITIAL_STATE"
  | .transactionProcessing _ => "TRANSACTION_PROCESSING"
  | .actionReceiptProcessingStarted _ => "ACTION_RECEIPT_PROCESSING_STARTED"
  | .actionReceiptGasReward _ => "ACTION_RECEIPT_GAS_REWARD"
  | .receiptProcessing _ => "RECEIPT_PROCESSING"
  | .postponedReceipt _ => "POSTPONED_RECEIPT"
  | .updatedDelayedReceipts => "UPDATED_DELAYED_RECEIPTS"
  | .validatorAccountsUpdate => "VALIDATOR_ACCOUNTS_UPDATE"
  | .migration => "MIGRATION"
  | .resharding => "RESHARDING"

/-- The record pushed by store_validator_accounts_update_for_chunk for one
validator-accounts-update event, given the resolved previous balances
(lines 101-131 of the source). -/
def validator_balance_change (block_header : BlockHeaderView) (shard_id : Nat)
    (account_id : String) (account : AccountView)
    (cause : StateChangeCauseView) (prev_balances : Balances) : BalanceChange :=
  { block_timestamp := (block_header.timestamp : Int)
    receipt_id := none
    transaction_hash := none
    affected_account_id := account_id
    involved_account_id := none
    direction := "NONE"
    cause := causePrint cause
    delta_liquid_amount := i128sub (toI128 account.amount) (toI128 prev_balances.1)
    absolute_liquid_amount := (account.amount : Int)
    delta_locked_amount := i128sub (toI128 account.locked) (toI128 prev_balances.2)
    absolute_locked_amount := (account.locked : Int)
    shard_id := wrapI32 shard_id
    index_in_chunk := 0 }

/-- store_validator_accounts_update_for_chunk: walk the shard's state
changes in order; keep only AccountUpdate values; on the five unhandled
causes panic; on ValidatorAccountsUpdate resolve the previous balances,
update the cache to the new (amount, locked), and emit a record; on every
other cause skip the event. -/
def store_validator_accounts_update_for_chunk (w : World)
    (state_changes : List StateChangeWithCauseView)
    (block_header : BlockHeaderView) (shard_id : Nat) (st : CacheState) :
    Except ProcError (List BalanceChange × CacheState) :=
  match state_changes with
  | [] => .ok ([], st)
  | state_change_with_cause :: rest =>
    match state_change_with_cause.value with
    | .other =>
      store_validator_accounts_update_for_chunk w rest block_header shard_id st
    | .accountUpdate account_id account =>
      match state_change_with_cause.cause with
      | .notWritableToDisk | .initialState | .updatedDelayedReceipts
      | .migration | .resharding => .error .panicDebug
      | .validatorAccountsUpdate =>
        match get_previous_balance w account_id block_header.prev_hash st with
        | .error e => .error e
        | .ok (prev_balances, st1) =>
          let st2 := set_new_balances account_id (account.amount, account.locked) st1
          match store_validator_accounts_update_for_chunk w rest block_header shard_id st2 with
          | .error e => .error e
          | .ok (recs, st3) =>
            .ok (validator_balance_change block_header shard_id account_id
                   account state_change_with_cause.cause prev_balances :: recs, st3)
      | _ =>
        store_validator_accounts_update_for_chunk w rest block_header shard_id st

/-- The record pushed by store_transaction_execution_outcomes_for_chunk for
one transaction, given the resolved previous balances (lines 156-182 of the
source).  new_liquid_amount is the wrapping u128 subtraction
prev_balances.0 - tokens_burnt. -/
def transaction_balance_change (block_header : BlockHeaderView) (shard_id : Nat)
    (transaction : IndexerTransactionWithOutcome)
    (prev_balances : Balances) : BalanceChange :=
  { block_timestamp := (block_header.timestamp : Int)
    receipt_id := none
    transaction_hash := some transaction.hash
    affected_account_id := transaction.outcome.executor_id
    involved_account_id := none
    direction := "ACTION_FROM_AFFECTED_ACCOUNT"
    cause := "TRANSACTION_PROCESSING"
    delta_liquid_amount := i128neg (toI128 transaction.outcome.tokens_burnt)
    absolute_liquid_amount := (u128sub prev_balances.1 transaction.outcome.tokens_burnt : Int)
    delta_locked_amount := 0
    absolute_locked_amount := (prev_balances.2 : Int)
    shard_id := wrapI32 shard_id
    index_in_chunk := 0 }

/-- store_transaction_execution_outcomes_for_chunk: for each transaction in
order, resolve the executor's previous balances, subtract the burnt fee
from the liquid amount, update the cache with (new_liquid, prev_locked),
and emit a record. -/
def store_transaction_execution_outcomes_for_chunk (w : World)
    (transactions : List IndexerTransactionWithOutcome)
    (block_header : BlockHeaderView) (shard_id : Nat) (st : CacheState) :
    Except ProcError (List BalanceChange × CacheState) :=
  match transactions with
  | [] => .ok ([], st)
  | transaction :: rest =>
    match get_previous_balance w transaction.outcome.executor_id
        block_header.prev_hash st with
    | .error e => .error e
    | .ok (prev_balances, st1) =>
      let new_liquid_amount := u128sub prev_balances.1 transaction.outcome.tokens_burnt
      let st2 := set_new_balances transaction.outcome.executor_id
        (new_liquid_amount, prev_balances.2) st1
      match store_transaction_execution_outcomes_for_chunk w rest block_header shard_id st2 with
      | .error e => .error e
      | .ok (recs, st3) =>
        .ok (transaction_balance_change block_header shard_id transaction
               prev_balances :: recs, st3)

/-- The index assignment of lines 56-58: each record's index_in_chunk is set
to its position, cast with `as i32`. -/
def enumerateFrom (i : Nat) : List BalanceChange → List BalanceChange
  | [] => []
  | c :: rest => { c with index_in_chunk := wrapI32 i } :: enumerateFrom (i + 1) rest

/-- Index assignment starting at 0 over a shard's combined record list. -/
def enumerate (changes : List BalanceChange) : List BalanceChange :=
  enumerateFrom 0 changes

/-- Modelled from the spec: models::chunked_insert lives in crate::models,
which is not part of the given source; the spec says the batch is submitted
in sub-batches of at most 10 rows, each insert atomic per sub-batch, with
failures surfaced.  Returns the list of submitted sub-batches. -/
def chunked_insert (w : World) : List BalanceChange →
    Except ProcError (List (List BalanceChange))
  | [] => .ok []
  | c1 :: c2 :: c3 :: c4 :: c5 :: c6 :: c7 :: c8 :: c9 :: c10 :: rest =>
    match w.db [c1, c2, c3, c4, c5, c6, c7, c8, c9, c10] with
    | .error e => .error (.storage e)
    | .ok _ =>
      match chunked_insert w rest with
      | .error e => .error e
      | .ok bs => .ok ([c1, c2, c3, c4, c5, c6, c7, c8, c9, c10] :: bs)
  | l =>
    match w.db l with
    | .error e => .error (.storage e)
    | .ok _ => .ok [l]

/-- Lines 33-58 of store_changes_for_chunk: run the validator-update
extractor, then (when the shard has a chunk) the transaction-outcome
extractor, concatenate the two record lists in that order, and assign
index_in_chunk by position. -/
def chunk_changes (w : World) (shard : IndexerShard)
    (block_header : BlockHeaderView) (st : CacheState) :
    Except ProcError (List BalanceChange × CacheState) :=
  match store_validator_accounts_update_for_chunk w shard.state_changes
      block_header shard.shard_id st with
  | .error e => .error e
  | .ok (vrecs, st1) =>
    match shard.chunk with
    | none => .ok (enumerate vrecs, st1)
    | some transactions =>
      match store_transaction_execution_outcomes_for_chunk w transactions
          block_header shard.shard_id st1 with
      | .error e => .error e
      | .ok (trecs, st2) => .ok (enumerate (vrecs ++ trecs), st2)

/-- store_changes_for_chunk: build the shard's enumerated batch and submit
it through chunked_insert.  The Rust function returns (); the model also
returns the submitted sub-batches to make the output observable. -/
def store_changes_for_chunk (w : World) (shard : IndexerShard)
    (block_header : BlockHeaderView) (st : CacheState) :
    Except ProcError (List (List BalanceChange) × CacheState) :=
  match chunk_changes w shard block_header st with
  | .error e => .error e
  | .ok (changes, st1) =>
    match chunked_insert w changes with
    | .error e => .error e
    | .ok batches => .ok (batches, st1)

/-- store_balance_changes: try_join_all of store_changes_for_chunk over the
block's shards, linearized left-to-right over the shared cache; it fails as
soon as any shard fails and succeeds only when every shard succeeds, which
is exactly the error/success structure of try_join_all. -/
def store_balance_changes (w : World) (shards : List IndexerShard)
    (block_header : BlockHeaderView) (st : CacheState) :
    Except ProcError (List (List BalanceChange) × CacheState) :=
  match shards with
  | [] => .ok ([], st)
  | shard :: rest =>
    match store_changes_for_chunk w shard block_header st with
    | .error e => .error e
    | .ok (batches, st1) =>
      match store_balance_changes w rest block_header st1 with
      | .error e => .error e
      | .ok (batches2, st2) => .ok (batches ++ batches2, st2)

/-- The five state-change causes on which the source panics outright. -/
def debugPanicCause : StateChangeCauseView → Bool
  | .notWritableToDisk => true
  | .initialState => true
  | .updatedDelayedReceipts => true
  | .migration => true
  | .resharding => true
  | _ => false

/-- A world whose remote query always answers (1000, 200) and whose database
always accepts, used to instantiate theorems on concrete inputs. -/
def wOk : World :=
  { rpc := fun _ _ => .ok (1000, 200), db := fun _ => .ok () }

/-- A block header fixture. -/
def bh0 : BlockHeaderView := { timestamp := 7, prev_hash := "ph" }

/-- An empty cache state fixture. -/
def st0 : CacheState := { cache := [], queries := [] }

lemma wrapI128_eq_self {z : Int} (h1 : -(2 ^ 127) ≤ z) (h2 : z < 2 ^ 127) :
    wrapI128 z = z := by
  unfold wrapI128
  omega

lemma i128sub_toI128 (a b : Nat) :
    i128sub (toI128 a) (toI128 b) = wrapI128 ((a : Int) - (b : Int)) := by
  unfold i128sub toI128 wrapI128
  omega

lemma i128sub_toI128_exact {a b : Nat}
    (h1 : -(2 ^ 127) ≤ (a : Int) - (b : Int)) (h2 : (a : Int) - (b : Int) < 2 ^ 127) :
    i128sub (toI128 a) (toI128 b) = (a : Int) - (b : Int) := by
  rw [i128sub_toI128 a b]
  exact wrapI128_eq_self h1 h2

lemma i128neg_toI128_exact {b : Nat} (hb : b ≤ 2 ^ 127) :
    i128neg (toI128 b) = -(b : Int) := by
  unfold i128neg toI128 wrapI128
  omega

lemma u128sub_exact {a b : Nat} (hba : b ≤ a) (ha : a < 2 ^ 128) :
    u128sub a b = a - b := by
  unfold u128sub
  omega

lemma cacheGet_cacheSet_same (c : List (String × Balances)) (a : String)
    (v : Balances) : cacheGet (cacheSet c a v) a = some v := by
  simp [cacheGet, cacheSet, List.find?]

/-- One step of the validator-update extractor on an event it keeps: the
resolved previous balances feed the emitted record, the cache is updated to
the account's new balances before the rest of the list is processed. -/
lemma validator_step (w : World) (sc : StateChangeWithCauseView)
    (rest : List StateChangeWithCauseView) (bh : BlockHeaderView) (sid : Nat)
    (st : CacheState) (aid : String) (acct : AccountView) (prev : Balances)
    (st1 : CacheState) (hval : sc.value = .accountUpdate aid acct)
    (hc : sc.cause = .validatorAccountsUpdate)
    (hres : get_previous_balance w aid bh.prev_hash st = .ok (prev, st1)) :
    store_validator_accounts_update_for_chunk w (sc :: rest) bh sid st =
      match store_validator_accounts_update_for_chunk w rest bh sid
          (set_new_balances aid (acct.amount, acct.locked) st1) with
      | .error e => .error e
      | .ok (recs, st3) =>
        .ok (validator_balance_change bh sid aid acct .validatorAccountsUpdate
               prev :: recs, st3) := by
  obtain ⟨c, v⟩ := sc
  simp only at hval hc
  subst hval
  subst hc
  simp only [store_validator_accounts_update_for_chunk, hres]

/-- One step of the transaction-outcome extractor: the resolved previous
balances feed the emitted record, and the cache entry of the executor
becomes (prev liquid - tokens burnt, prev locked) (wrapping u128
subtraction) before the rest of the list is processed. -/
lemma transaction_step (w : World) (tx : IndexerTransactionWithOutcome)
    (rest : List IndexerTransactionWithOutcome) (bh : BlockHeaderView)
    (sid : Nat) (st : CacheState) (prev : Balances) (st1 : CacheState)
    (hres : get_previous_balance w tx.outcome.executor_id bh.prev_hash st =
      .ok (prev, st1)) :
    store_transaction_execution_outcomes_for_chunk w (tx :: rest) bh sid st =
      match store_transaction_execution_outcomes_for_chunk w rest bh sid
          (set_new_balances tx.outcome.executor_id
            (u128sub prev.1 tx.outcome.tokens_burnt, prev.2) st1) with
      | .error e => .error e
      | .ok (recs, st3) =>
        .ok (transaction_balance_change bh sid tx prev :: recs, st3) := by
  simp only [store_transaction_execution_outcomes_for_chunk, hres]

/-- C5: a previous-balance resolution that misses the cache performs exactly
one remote query (extending the query log by a single entry for that
account), stores the result in the cache, and returns it; any subsequent
resolution for the same account while the entry is still cached (any later
state, world, and block hash) returns the cached value with the state, and
in particular the query log, unchanged. -/
theorem resolver_queries_once (w : World) (a h : String) (st : CacheState)
    (v : Balances) (hmiss : cacheGet st.cache a = none)
    (hrpc : w.rpc a h = .ok v) :
    ∃ st1, get_previous_balance w a h st = .ok (v, st1) ∧
      st1.queries = st.queries ++ [(a, h)] ∧
      cacheGet st1.cache a = some v ∧
      ∀ (w2 : World) (h2 : String) (st2 : CacheState),
        cacheGet st2.cache a = some v →
        get_previous_balance w2 a h2 st2 = .ok (v, st2) := by
  refine ⟨{ cache := cacheSet st.cache a v, queries := st.queries ++ [(a, h)] },
    ?_, rfl, cacheGet_cacheSet_same _ _ _, ?_⟩
  · unfold get_previous_balance
    rw [hmiss, hrpc]
  · intro w2 h2 st2 hhit
    unfold get_previous_balance
    rw [hhit]

/-- Witness for resolver_queries_once at a concrete input: the empty cache
misses account b, the remote query in wOk answers (1000, 200), and the
resulting state serves a second resolution from the cache. -/
theorem resolver_queries_once_witness :
    ∃ st1, get_previous_balance wOk ("b") ("ph") st0 = .ok ((1000, 200), st1) ∧
      st1.queries = st0.queries ++ [(("b"), ("ph"))] ∧
      cacheGet st1.cache ("b") = some (1000, 200) ∧
      ∀ (w2 : World) (h2 : String) (st2 : CacheState),
        cacheGet st2.cache ("b") = some (1000, 200) →
        get_previous_balance w2 ("b") h2 st2 = .ok ((1000, 200), st2) :=
  resolver_queries_once wOk ("b") ("ph") st0 (1000, 200) rfl rfl

/-- Counterexample to C2 as stated: a state-change event whose value is an
account update and whose cause is TransactionProcessing (not the recognized
validator-accounts-update cause) is silently skipped by the extractor,
which succeeds with an empty output, rather than aborting. -/
theorem unrecognized_cause_not_fatal_cex :
    (StateChangeWithCauseView.mk (.transactionProcessing ("h"))
        (.accountUpdate ("alice") ⟨1, 2⟩)).cause ≠ .validatorAccountsUpdate ∧
    store_validator_accounts_update_for_chunk wOk
      [⟨.transactionProcessing ("h"), .accountUpdate ("alice") ⟨1, 2⟩⟩]
      bh0 0 st0 = .ok ([], st0) := by
  exact ⟨by decide, rfl⟩

/-- C2 amended: for a state-change event carrying an account update, the
five causes NotWritableToDisk, InitialState, UpdatedDelayedReceipts,
Migration and Resharding abort processing unconditionally (the panic),
while every other cause that is not ValidatorAccountsUpdate is silently
skipped: processing continues on the remaining events unchanged. -/
theorem unrecognized_cause_handling (w : World)
    (sc : StateChangeWithCauseView) (rest : List StateChangeWithCauseView)
    (bh : BlockHeaderView) (sid : Nat) (st : CacheState)
    (aid : String) (acct : AccountView)
    (hval : sc.value = .accountUpdate aid acct) :
    (debugPanicCause sc.cause = true →
      store_validator_accounts_update_for_chunk w (sc :: rest) bh sid st =
        .error .panicDebug) ∧
    (debugPanicCause sc.cause = false → sc.cause ≠ .validatorAccountsUpdate →
      store_validator_accounts_update_for_chunk w (sc :: rest) bh sid st =
        store_validator_accounts_update_for_chunk w rest bh sid st) := by
  obtain ⟨c, v⟩ := sc
  simp only at hval
  subst hval
  cases c <;>
    simp [store_validator_accounts_update_for_chunk, debugPanicCause]

/-- Witness for unrecognized_cause_handling: the Migration cause aborts, and
the TransactionProcessing cause skips to the rest of the list. -/
theorem unrecognized_cause_handling_witness :
    store_validator_accounts_update_for_chunk wOk
      [⟨.migration, .accountUpdate ("a") ⟨1, 2⟩⟩] bh0 0 st0 =
        .error .panicDebug ∧
    store_validator_accounts_update_for_chunk wOk
      [⟨.transactionProcessing ("h"), .accountUpdate ("a") ⟨1, 2⟩⟩] bh0 0 st0 =
      store_validator_accounts_update_for_chunk wOk [] bh0 0 st0 :=
  ⟨(unrecognized_cause_handling wOk ⟨.migration, .accountUpdate ("a") ⟨1, 2⟩⟩
      [] bh0 0 st0 ("a") ⟨1, 2⟩ rfl).1 rfl,
   (unrecognized_cause_handling wOk
      ⟨.transactionProcessing ("h"), .accountUpdate ("a") ⟨1, 2⟩⟩
      [] bh0 0 st0 ("a") ⟨1, 2⟩ rfl).2 rfl (by decide)⟩

/-- Every record produced by the validator-update extractor is the
validator_balance_change record of a kept event: fixed direction, the
printed validator-accounts-update cause, and no transaction or receipt
identifiers. -/
lemma validator_recs_fields (w : World) (bh : BlockHeaderView) (sid : Nat)
    (scs : List StateChangeWithCauseView) :
    ∀ (st : CacheState) (recs : List BalanceChange) (st1 : CacheState),
      store_validator_accounts_update_for_chunk w scs bh sid st = .ok (recs, st1) →
      ∀ r ∈ recs, r.direction = "NONE" ∧
        r.cause = causePrint .validatorAccountsUpdate ∧
        r.transaction_hash = none ∧ r.receipt_id = none := by
  induction scs with
  | nil =>
    intro st recs st1 h r hr
    simp only [store_validator_accounts_update_for_chunk, Except.ok.injEq,
      Prod.mk.injEq] at h
    rw [← h.1] at hr
    simp at hr
  | cons sc rest ih =>
    intro st recs st1 h r hr
    obtain ⟨c, v⟩ := sc
    cases v with
    | other =>
      exact ih st recs st1
        (by simpa [store_validator_accounts_update_for_chunk] using h) r hr
    | accountUpdate aid acct =>
      cases c
      case validatorAccountsUpdate =>
        simp only [store_validator_accounts_update_for_chunk] at h
        cases hg : get_previous_balance w aid bh.prev_hash st with
        | error e => rw [hg] at h; simp at h
        | ok pb =>
          obtain ⟨prev, stx⟩ := pb
          rw [hg] at h
          simp only at h
          cases hrec : store_validator_accounts_update_for_chunk w rest bh sid
              (set_new_balances aid (acct.amount, acct.locked) stx) with
          | error e => rw [hrec] at h; simp at h
          | ok p2 =>
            obtain ⟨recs0, st3⟩ := p2
            rw [hrec] at h
            simp only [Except.ok.injEq, Prod.mk.injEq] at h
            rw [← h.1] at hr
            rcases List.mem_cons.mp hr with h1 | h2
            · subst h1
              exact ⟨rfl, rfl, rfl, rfl⟩
            · exact ih _ _ _ hrec r h2
      all_goals
        exact ih st recs st1
          (by simpa [store_validator_accounts_update_for_chunk] using h) r hr

/-- Every record produced by the transaction-outcome extractor is the
transaction_balance_change record of a transaction: fixed direction, fixed
cause, and the transaction hash populated. -/
lemma transaction_recs_fields (w : World) (bh : BlockHeaderView) (sid : Nat)
    (txs : List IndexerTransactionWithOutcome) :
    ∀ (st : CacheState) (recs : List BalanceChange) (st1 : CacheState),
      store_transaction_execution_outcomes_for_chunk w txs bh sid st = .ok (recs, st1) →
      ∀ r ∈ recs, r.direction = "ACTION_FROM_AFFECTED_ACCOUNT" ∧
        r.cause = "TRANSACTION_PROCESSING" ∧ r.transaction_hash ≠ none := by
  induction txs with
  | nil =>
    intro st recs st1 h r hr
    simp only [store_transaction_execution_outcomes_for_chunk, Except.ok.injEq,
      Prod.mk.injEq] at h
    rw [← h.1] at hr
    simp at hr
  | cons tx rest ih =>
    intro st recs st1 h r hr
    simp only [store_transaction_execution_outcomes_for_chunk] at h
    cases hg : get_previous_balance w tx.outcome.executor_id bh.prev_hash st with
    | error e => rw [hg] at h; simp at h
    | ok pb =>
      obtain ⟨prev, stx⟩ := pb
      rw [hg] at h
      simp only at h
      cases hrec : store_transaction_execution_outcomes_for_chunk w rest bh sid
          (set_new_balances tx.outcome.executor_id
            (u128sub prev.1 tx.outcome.tokens_burnt, prev.2) stx) with
      | error e => rw [hrec] at h; simp at h
      | ok p2 =>
        obtain ⟨recs0, st3⟩ := p2
        rw [hrec] at h
        simp only [Except.ok.injEq, Prod.mk.injEq] at h
        rw [← h.1] at hr
        rcases List.mem_cons.mp hr with h1 | h2
        · subst h1
          exact ⟨rfl, rfl, by simp [transaction_balance_change]⟩
        · exact ih _ _ _ hrec r h2

/-- C8: every record emitted by the validator-update extractor has direction
NONE, cause equal to the printed form of the triggering
ValidatorAccountsUpdate cause (which is non-empty), and neither a
transaction hash nor a receipt id; every record emitted by the
transaction-outcome extractor has direction ACTION_FROM_AFFECTED_ACCOUNT,
cause TRANSACTION_PROCESSING, and a populated transaction hash. -/
theorem producer_record_shape :
    (∀ (w : World) (bh : BlockHeaderView) (sid : Nat)
        (scs : List StateChangeWithCauseView) (st : CacheState)
        (recs : List BalanceChange) (st1 : CacheState),
      store_validator_accounts_update_for_chunk w scs bh sid st = .ok (recs, st1) →
      ∀ r ∈ recs, r.direction = "NONE" ∧
        r.cause = causePrint .validatorAccountsUpdate ∧ r.cause ≠ "" ∧
        r.transaction_hash = none ∧ r.receipt_id = none) ∧
    (∀ (w : World) (bh : BlockHeaderView) (sid : Nat)
        (txs : List IndexerTransactionWithOutcome) (st : CacheState)
        (recs : List BalanceChange) (st1 : CacheState),
      store_transaction_execution_outcomes_for_chunk w txs bh sid st = .ok (recs, st1) →
      ∀ r ∈ recs, r.direction = "ACTION_FROM_AFFECTED_ACCOUNT" ∧
        r.cause = "TRANSACTION_PROCESSING" ∧ r.transaction_hash ≠ none) := by
  constructor
  · intro w bh sid scs st recs st1 h r hr
    obtain ⟨h1, h2, h3, h4⟩ := validator_recs_fields w bh sid scs st recs st1 h r hr
    exact ⟨h1, h2, by rw [h2]; decide, h3, h4⟩
  · intro w bh sid txs st recs st1 h r hr
    exact transaction_recs_fields w bh sid txs st recs st1 h r hr

/-- Witness for producer_record_shape: both extractors are run on a
one-element input against the empty cache and the wOk world, and the shape
facts are read off the produced records. -/
theorem producer_record_shape_witness :
    ∃ vrecs stv trecs stt,
      store_validator_accounts_update_for_chunk wOk
        [⟨.validatorAccountsUpdate, .accountUpdate ("a") ⟨5, 7⟩⟩]
        bh0 0 st0 = .ok (vrecs, stv) ∧
      (∀ r ∈ vrecs, r.direction = "NONE" ∧
        r.cause = causePrint .validatorAccountsUpdate ∧ r.cause ≠ "" ∧
        r.transaction_hash = none ∧ r.receipt_id = none) ∧
      store_transaction_execution_outcomes_for_chunk wOk
        [⟨("txh"), ⟨("a"), 5⟩⟩] bh0 0 st0 = .ok (trecs, stt) ∧
      (∀ r ∈ trecs, r.direction = "ACTION_FROM_AFFECTED_ACCOUNT" ∧
        r.cause = "TRANSACTION_PROCESSING" ∧ r.transaction_hash ≠ none) :=
  ⟨_, _, _, _, rfl,
    producer_record_shape.1 wOk bh0 0
      [⟨.validatorAccountsUpdate, .accountUpdate ("a") ⟨5, 7⟩⟩] st0 _ _ rfl,
    rfl,
    producer_record_shape.2 wOk bh0 0 [⟨("txh"), ⟨("a"), 5⟩⟩] st0 _ _ rfl⟩

/-- A cache state fixture whose cache maps account a to (0, 0). -/
def stA : CacheState := { cache := [(("a"), ((0 : Nat), (0 : Nat)))], queries := [] }

/-- C6 amended: for a validator-update event, the emitted deltas equal the
exact mathematical differences new - prev for liquid and locked amounts,
provided each difference lies in the signed 128-bit range
[-2 ^ 127, 2 ^ 127); outside that range the u128-to-i128 casts and the i128
subtraction wrap.  The event is taken as the head of the remaining
state-change list, with the state reached at that point, so every kept
event of a successful run is covered. -/
theorem validator_delta_exact (w : World) (sc : StateChangeWithCauseView)
    (rest : List StateChangeWithCauseView) (bh : BlockHeaderView) (sid : Nat)
    (st : CacheState) (aid : String) (acct : AccountView) (prev : Balances)
    (st1 : CacheState) (recs : List BalanceChange) (st2 : CacheState)
    (hval : sc.value = .accountUpdate aid acct)
    (hc : sc.cause = .validatorAccountsUpdate)
    (hres : get_previous_balance w aid bh.prev_hash st = .ok (prev, st1))
    (h1 : -(2 ^ 127) ≤ (acct.amount : Int) - (prev.1 : Int))
    (h2 : (acct.amount : Int) - (prev.1 : Int) < 2 ^ 127)
    (h3 : -(2 ^ 127) ≤ (acct.locked : Int) - (prev.2 : Int))
    (h4 : (acct.locked : Int) - (prev.2 : Int) < 2 ^ 127)
    (hrun : store_validator_accounts_update_for_chunk w (sc :: rest) bh sid st =
      .ok (recs, st2)) :
    ∃ r rest2, recs = r :: rest2 ∧
      r.delta_liquid_amount = (acct.amount : Int) - (prev.1 : Int) ∧
      r.delta_locked_amount = (acct.locked : Int) - (prev.2 : Int) := by
  rw [validator_step w sc rest bh sid st aid acct prev st1 hval hc hres] at hrun
  cases hrec : store_validator_accounts_update_for_chunk w rest bh sid
      (set_new_balances aid (acct.amount, acct.locked) st1) with
  | error e => rw [hrec] at hrun; simp at hrun
  | ok p2 =>
    obtain ⟨recs0, st3⟩ := p2
    rw [hrec] at hrun
    simp only [Except.ok.injEq, Prod.mk.injEq] at hrun
    refine ⟨_, recs0, hrun.1.symm, ?_, ?_⟩
    · exact i128sub_toI128_exact h1 h2
    · exact i128sub_toI128_exact h3 h4

/-- Counterexample to C6 as stated: with a cached previous liquid balance of
0 and a validator update setting the liquid balance to 2 ^ 127, the emitted
deltaLiquidAmount is -(2 ^ 127), not the exact difference 2 ^ 127: the
u128-to-i128 cast wraps. -/
theorem validator_delta_exact_cex :
    ∃ recs st2,
      store_validator_accounts_update_for_chunk wOk
        [⟨.validatorAccountsUpdate, .accountUpdate ("a") ⟨2 ^ 127, 0⟩⟩]
        bh0 0 stA = .ok (recs, st2) ∧
      get_previous_balance wOk ("a") bh0.prev_hash stA = .ok ((0, 0), stA) ∧
      ∃ r rest2, recs = r :: rest2 ∧
        r.delta_liquid_amount ≠ ((2 ^ 127 : Nat) : Int) - ((0 : Nat) : Int) := by
  refine ⟨_, _, rfl, rfl, _, [], rfl, ?_⟩
  decide

/-- Witness for validator_delta_exact: the update of account a from cached
(0, 0) to (150, 40) has exact deltas 150 and 40. -/
theorem validator_delta_exact_witness :
    ∃ recs st2,
      store_validator_accounts_update_for_chunk wOk
        [⟨.validatorAccountsUpdate, .accountUpdate ("a") ⟨150, 40⟩⟩]
        bh0 0 stA = .ok (recs, st2) ∧
      ∃ r rest2, recs = r :: rest2 ∧
        r.delta_liquid_amount = ((150 : Nat) : Int) - ((0 : Nat) : Int) ∧
        r.delta_locked_amount = ((40 : Nat) : Int) - ((0 : Nat) : Int) :=
  ⟨_, _, rfl,
    validator_delta_exact wOk
      ⟨.validatorAccountsUpdate, .accountUpdate ("a") ⟨150, 40⟩⟩ [] bh0 0 stA
      ("a") ⟨150, 40⟩ (0, 0) stA _ _ rfl rfl rfl (by decide) (by decide)
      (by decide) (by decide) rfl⟩

/-- C1 amended: for both producers, an emitted record satisfies
absoluteLiquidAmount = previous liquid + deltaLiquidAmount and the locked
analogue, provided the arithmetic does not wrap: for a validator record
both signed differences must lie in [-2 ^ 127, 2 ^ 127), and for a
transaction record the burnt fee must not exceed the previous liquid
balance and must be at most 2 ^ 127 (with the previous balance a valid
u128).  Each producer is applied at the head of its remaining input with
the state reached at that point, so every record of a successful run is
covered. -/
theorem absolute_matches_prev_plus_delta :
    (∀ (w : World) (sc : StateChangeWithCauseView)
        (rest : List StateChangeWithCauseView) (bh : BlockHeaderView)
        (sid : Nat) (st : CacheState) (aid : String) (acct : AccountView)
        (prev : Balances) (st1 : CacheState) (recs : List BalanceChange)
        (st2 : CacheState),
      sc.value = .accountUpdate aid acct →
      sc.cause = .validatorAccountsUpdate →
      get_previous_balance w aid bh.prev_hash st = .ok (prev, st1) →
      -(2 ^ 127) ≤ (acct.amount : Int) - (prev.1 : Int) →
      (acct.amount : Int) - (prev.1 : Int) < 2 ^ 127 →
      -(2 ^ 127) ≤ (acct.locked : Int) - (prev.2 : Int) →
      (acct.locked : Int) - (prev.2 : Int) < 2 ^ 127 →
      store_validator_accounts_update_for_chunk w (sc :: rest) bh sid st =
        .ok (recs, st2) →
      ∃ r rest2, recs = r :: rest2 ∧
        r.absolute_liquid_amount = (prev.1 : Int) + r.delta_liquid_amount ∧
        r.absolute_locked_amount = (prev.2 : Int) + r.delta_locked_amount) ∧
    (∀ (w : World) (tx : IndexerTransactionWithOutcome)
        (rest : List IndexerTransactionWithOutcome) (bh : BlockHeaderView)
        (sid : Nat) (st : CacheState) (prev : Balances) (st1 : CacheState)
        (recs : List BalanceChange) (st2 : CacheState),
      get_previous_balance w tx.outcome.executor_id bh.prev_hash st =
        .ok (prev, st1) →
      tx.outcome.tokens_burnt ≤ prev.1 →
      tx.outcome.tokens_burnt ≤ 2 ^ 127 →
      prev.1 < 2 ^ 128 →
      store_transaction_execution_outcomes_for_chunk w (tx :: rest) bh sid st =
        .ok (recs, st2) →
      ∃ r rest2, recs = r :: rest2 ∧
        r.absolute_liquid_amount = (prev.1 : Int) + r.delta_liquid_amount ∧
        r.absolute_locked_amount = (prev.2 : Int) + r.delta_locked_amount) := by
  constructor
  · intro w sc rest bh sid st aid acct prev st1 recs st2 hval hc hres h1 h2 h3 h4 hrun
    rw [validator_step w sc rest bh sid st aid acct prev st1 hval hc hres] at hrun
    cases hrec : store_validator_accounts_update_for_chunk w rest bh sid
        (set_new_balances aid (acct.amount, acct.locked) st1) with
    | error e => rw [hrec] at hrun; simp at hrun
    | ok p2 =>
      obtain ⟨recs0, st3⟩ := p2
      rw [hrec] at hrun
      simp only [Except.ok.injEq, Prod.mk.injEq] at hrun
      refine ⟨_, recs0, hrun.1.symm, ?_, ?_⟩
      · show (acct.amount : Int) =
          (prev.1 : Int) + i128sub (toI128 acct.amount) (toI128 prev.1)
        rw [i128sub_toI128_exact h1 h2]
        ring
      · show (acct.locked : Int) =
          (prev.2 : Int) + i128sub (toI128 acct.locked) (toI128 prev.2)
        rw [i128sub_toI128_exact h3 h4]
        ring
  · intro w tx rest bh sid st prev st1 recs st2 hres hb hb2 hp hrun
    rw [transaction_step w tx rest bh sid st prev st1 hres] at hrun
    cases hrec : store_transaction_execution_outcomes_for_chunk w rest bh sid
        (set_new_balances tx.outcome.executor_id
          (u128sub prev.1 tx.outcome.tokens_burnt, prev.2) st1) with
    | error e => rw [hrec] at hrun; simp at hrun
    | ok p2 =>
      obtain ⟨recs0, st3⟩ := p2
      rw [hrec] at hrun
      simp only [Except.ok.injEq, Prod.mk.injEq] at hrun
      refine ⟨_, recs0, hrun.1.symm, ?_, by simp [transaction_balance_change]⟩
      show ((u128sub prev.1 tx.outcome.tokens_burnt : Nat) : Int) =
        (prev.1 : Int) + i128neg (toI128 tx.outcome.tokens_burnt)
      rw [u128sub_exact hb hp, i128neg_toI128_exact hb2, Nat.cast_sub hb]
      ring

/-- Counterexample to C1 as stated: with a cached previous balance of (0, 0)
and a validator update to liquid 2 ^ 127, the emitted record has
absoluteLiquidAmount 2 ^ 127 but previousLiquid + deltaLiquidAmount =
0 + (-(2 ^ 127)), because the cast to i128 wraps the delta. -/
theorem absolute_matches_prev_plus_delta_cex :
    ∃ recs st2,
      store_validator_accounts_update_for_chunk wOk
        [⟨.validatorAccountsUpdate, .accountUpdate ("a") ⟨2 ^ 127, 1⟩⟩]
        bh0 0 stA = .ok (recs, st2) ∧
      get_previous_balance wOk ("a") bh0.prev_hash stA = .ok ((0, 0), stA) ∧
      ∃ r rest2, recs = r :: rest2 ∧
        r.absolute_liquid_amount ≠ ((0 : Nat) : Int) + r.delta_liquid_amount := by
  refine ⟨_, _, rfl, rfl, _, [], rfl, ?_⟩
  decide

/-- Witness for absolute_matches_prev_plus_delta: both parts instantiated,
the validator part on an update of account a from cached (0, 0) to (5, 7),
the transaction part on a fee burn of 5 against the remote balances
(1000, 200). -/
theorem absolute_matches_prev_plus_delta_witness :
    (∃ recs st2,
      store_validator_accounts_update_for_chunk wOk
        [⟨.validatorAccountsUpdate, .accountUpdate ("a") ⟨5, 7⟩⟩]
        bh0 0 stA = .ok (recs, st2) ∧
      ∃ r rest2, recs = r :: rest2 ∧
        r.absolute_liquid_amount = ((0 : Nat) : Int) + r.delta_liquid_amount ∧
        r.absolute_locked_amount = ((0 : Nat) : Int) + r.delta_locked_amount) ∧
    (∃ recs st2,
      store_transaction_execution_outcomes_for_chunk wOk
        [⟨("txh"), ⟨("b"), 5⟩⟩] bh0 0 st0 = .ok (recs, st2) ∧
      ∃ r rest2, recs = r :: rest2 ∧
        r.absolute_liquid_amount = ((1000 : Nat) : Int) + r.delta_liquid_amount ∧
        r.absolute_locked_amount = ((200 : Nat) : Int) + r.delta_locked_amount) :=
  ⟨⟨_, _, rfl,
    absolute_matches_prev_plus_delta.1 wOk
      ⟨.validatorAccountsUpdate, .accountUpdate ("a") ⟨5, 7⟩⟩ [] bh0 0 stA
      ("a") ⟨5, 7⟩ (0, 0) stA _ _ rfl rfl rfl (by decide) (by decide)
      (by decide) (by decide) rfl⟩,
   ⟨_, _, rfl,
    absolute_matches_prev_plus_delta.2 wOk ⟨("txh"), ⟨("b"), 5⟩⟩ [] bh0 0 st0
      (1000, 200) _ _ _ rfl (by decide) (by decide) (by decide) rfl⟩⟩

/-- C4 amended: for a transaction outcome whose previous balances have been
resolved, the fee-burn step itself introduces no error (in the wrapping
model the subtraction always succeeds; any error of the full call comes
from the previous-balance resolution or from the remaining transactions),
and provided tokensBurnt ≤ prevLiquid ≤ u128 max and tokensBurnt ≤ 2 ^ 127
the emitted record has deltaLiquidAmount = -tokensBurnt,
deltaLockedAmount = 0, absoluteLiquidAmount = prevLiquid - tokensBurnt,
absoluteLockedAmount = prevLocked, and the cache entry of the paying
account becomes (prevLiquid - tokensBurnt, prevLocked). -/
theorem fee_burn_step (w : World) (tx : IndexerTransactionWithOutcome)
    (rest : List IndexerTransactionWithOutcome) (bh : BlockHeaderView)
    (sid : Nat) (st : CacheState) (prev : Balances) (st1 : CacheState)
    (hres : get_previous_balance w tx.outcome.executor_id bh.prev_hash st =
      .ok (prev, st1))
    (hb : tx.outcome.tokens_burnt ≤ prev.1)
    (hb2 : tx.outcome.tokens_burnt ≤ 2 ^ 127) (hp : prev.1 < 2 ^ 128) :
    store_transaction_execution_outcomes_for_chunk w (tx :: rest) bh sid st =
      (match store_transaction_execution_outcomes_for_chunk w rest bh sid
          (set_new_balances tx.outcome.executor_id
            (prev.1 - tx.outcome.tokens_burnt, prev.2) st1) with
        | .error e => .error e
        | .ok (recs, st3) =>
          .ok (transaction_balance_change bh sid tx prev :: recs, st3)) ∧
    cacheGet (set_new_balances tx.outcome.executor_id
        (prev.1 - tx.outcome.tokens_burnt, prev.2) st1).cache
        tx.outcome.executor_id =
      some (prev.1 - tx.outcome.tokens_burnt, prev.2) ∧
    (transaction_balance_change bh sid tx prev).delta_liquid_amount =
      -(tx.outcome.tokens_burnt : Int) ∧
    (transaction_balance_change bh sid tx prev).delta_locked_amount = 0 ∧
    (transaction_balance_change bh sid tx prev).absolute_liquid_amount =
      (prev.1 : Int) - (tx.outcome.tokens_burnt : Int) ∧
    (transaction_balance_change bh sid tx prev).absolute_locked_amount =
      (prev.2 : Int) := by
  refine ⟨?_, ?_, ?_, rfl, ?_, rfl⟩
  · rw [transaction_step w tx rest bh sid st prev st1 hres,
      u128sub_exact hb hp]
  · exact cacheGet_cacheSet_same st1.cache tx.outcome.executor_id _
  · exact i128neg_toI128_exact hb2
  · show ((u128sub prev.1 tx.outcome.tokens_burnt : Nat) : Int) =
      (prev.1 : Int) - (tx.outcome.tokens_burnt : Int)
    rw [u128sub_exact hb hp, Nat.cast_sub hb]

/-- Counterexample to C4 as stated: a fee burn of 1 against a resolved
previous balance of (0, 0) does not set newLiquid = prevLiquid -
tokensBurnt (which would be -1): the u128 subtraction wraps and the emitted
absoluteLiquidAmount is 2 ^ 128 - 1. -/
theorem fee_burn_step_cex :
    ∃ recs st2,
      store_transaction_execution_outcomes_for_chunk wOk
        [⟨("txh"), ⟨("a"), 1⟩⟩] bh0 0 stA = .ok (recs, st2) ∧
      get_previous_balance wOk ("a") bh0.prev_hash stA = .ok ((0, 0), stA) ∧
      ∃ r rest2, recs = r :: rest2 ∧
        r.absolute_liquid_amount ≠ ((0 : Nat) : Int) - ((1 : Nat) : Int) := by
  refine ⟨_, _, rfl, rfl, _, [], rfl, ?_⟩
  decide

/-- Witness for fee_burn_step: a burn of 5 against the resolved remote
balances (1000, 200) of account b. -/
theorem fee_burn_step_witness :
    store_transaction_execution_outcomes_for_chunk wOk
        [⟨("txh"), ⟨("b"), 5⟩⟩] bh0 0 st0 =
      (match store_transaction_execution_outcomes_for_chunk wOk [] bh0 0
          (set_new_balances ("b") ((1000 : Nat) - 5, 200)
            { cache := cacheSet st0.cache ("b") (1000, 200),
              queries := st0.queries ++ [(("b"), bh0.prev_hash)] }) with
        | .error e => .error e
        | .ok (recs, st3) =>
          .ok (transaction_balance_change bh0 0 ⟨("txh"), ⟨("b"), 5⟩⟩
            (1000, 200) :: recs, st3)) ∧
    (transaction_balance_change bh0 0 ⟨("txh"), ⟨("b"), 5⟩⟩
      (1000, 200)).delta_liquid_amount = -((5 : Nat) : Int) ∧
    (transaction_balance_change bh0 0 ⟨("txh"), ⟨("b"), 5⟩⟩
      (1000, 200)).absolute_liquid_amount =
      ((1000 : Nat) : Int) - ((5 : Nat) : Int) :=
  have h := fee_burn_step wOk ⟨("txh"), ⟨("b"), 5⟩⟩ [] bh0 0 st0 (1000, 200)
    { cache := cacheSet st0.cache ("b") (1000, 200),
      queries := st0.queries ++ [(("b"), bh0.prev_hash)] }
    rfl (by decide) (by decide) (by decide)
  ⟨h.1, h.2.2.1, h.2.2.2.2.1⟩

/-- A cache state fixture whose cache maps account a to (100, 0). -/
def stB : CacheState := { cache := [(("a"), ((100 : Nat), (0 : Nat)))], queries := [] }

/-- chunk_changes on a shard without a chunk: only the validator extractor
runs and its records are enumerated. -/
lemma chunk_changes_none (w : World) (shard : IndexerShard)
    (bh : BlockHeaderView) (st : CacheState) (vrecs : List BalanceChange)
    (st1 : CacheState) (hchunk : shard.chunk = none)
    (hv : store_validator_accounts_update_for_chunk w shard.state_changes bh
      shard.shard_id st = .ok (vrecs, st1)) :
    chunk_changes w shard bh st = .ok (enumerate vrecs, st1) := by
  simp only [chunk_changes, hv, hchunk]

/-- chunk_changes on a shard with a chunk: both extractors run in order and
the concatenation (validator records first) is enumerated. -/
lemma chunk_changes_parts (w : World) (shard : IndexerShard)
    (bh : BlockHeaderView) (st : CacheState) (vrecs : List BalanceChange)
    (st1 : CacheState) (txs : List IndexerTransactionWithOutcome)
    (trecs : List BalanceChange) (st2 : CacheState)
    (hchunk : shard.chunk = some txs)
    (hv : store_validator_accounts_update_for_chunk w shard.state_changes bh
      shard.shard_id st = .ok (vrecs, st1))
    (ht : store_transaction_execution_outcomes_for_chunk w txs bh
      shard.shard_id st1 = .ok (trecs, st2)) :
    chunk_changes w shard bh st = .ok (enumerate (vrecs ++ trecs), st2) := by
  simp only [chunk_changes, hv, hchunk, ht]

/-- C7: when a validator update for an account is followed, in the same
shard, by a fee burn for the same account, the second event resolves its
previous balances to the first event's result (the cache was updated in
between), not to the pre-block cached value p: the transaction record is
built from (amt, lck) and its absolute amounts are amt - b and lck,
whatever p was. -/
theorem same_shard_second_event_sees_first (w : World) (bh : BlockHeaderView)
    (sid : Nat) (a hsh : String) (p : Balances) (amt lck b : Nat)
    (st : CacheState) (hcache : cacheGet st.cache a = some p)
    (hb : b ≤ amt) (hamt : amt < 2 ^ 128) :
    ∃ st2,
      chunk_changes w
        ⟨sid, [⟨.validatorAccountsUpdate, .accountUpdate a ⟨amt, lck⟩⟩],
          some [⟨hsh, ⟨a, b⟩⟩]⟩ bh st =
        .ok (enumerate
          [validator_balance_change bh sid a ⟨amt, lck⟩
             .validatorAccountsUpdate p,
           transaction_balance_change bh sid ⟨hsh, ⟨a, b⟩⟩ (amt, lck)], st2) ∧
      (transaction_balance_change bh sid ⟨hsh, ⟨a, b⟩⟩
        (amt, lck)).absolute_liquid_amount = (amt : Int) - (b : Int) ∧
      (transaction_balance_change bh sid ⟨hsh, ⟨a, b⟩⟩
        (amt, lck)).absolute_locked_amount = (lck : Int) := by
  have hres1 : get_previous_balance w a bh.prev_hash st = .ok (p, st) := by
    unfold get_previous_balance
    rw [hcache]
  have hv : store_validator_accounts_update_for_chunk w
      [⟨.validatorAccountsUpdate, .accountUpdate a ⟨amt, lck⟩⟩] bh sid st =
      .ok ([validator_balance_change bh sid a ⟨amt, lck⟩
        .validatorAccountsUpdate p], set_new_balances a (amt, lck) st) := by
    rw [validator_step w _ [] bh sid st a ⟨amt, lck⟩ p st rfl rfl hres1]
    rfl
  have hres2 : get_previous_balance w a bh.prev_hash
      (set_new_balances a (amt, lck) st) =
      .ok ((amt, lck), set_new_balances a (amt, lck) st) := by
    unfold get_previous_balance
    rw [show cacheGet (set_new_balances a (amt, lck) st).cache a =
      some (amt, lck) from cacheGet_cacheSet_same st.cache a (amt, lck)]
  have ht : store_transaction_execution_outcomes_for_chunk w
      [⟨hsh, ⟨a, b⟩⟩] bh sid (set_new_balances a (amt, lck) st) =
      .ok ([transaction_balance_change bh sid ⟨hsh, ⟨a, b⟩⟩ (amt, lck)],
        set_new_balances a (u128sub amt b, lck)
          (set_new_balances a (amt, lck) st)) := by
    rw [transaction_step w _ [] bh sid _ (amt, lck) _ hres2]
    rfl
  refine ⟨set_new_balances a (u128sub amt b, lck)
    (set_new_balances a (amt, lck) st), ?_, ?_, rfl⟩
  · exact chunk_changes_parts w
      ⟨sid, [⟨.validatorAccountsUpdate, .accountUpdate a ⟨amt, lck⟩⟩],
        some [⟨hsh, ⟨a, b⟩⟩]⟩ bh st _ _ _ _ _ rfl hv ht
  · show ((u128sub amt b : Nat) : Int) = (amt : Int) - (b : Int)
    rw [u128sub_exact hb hamt, Nat.cast_sub hb]

/-- Witness for same_shard_second_event_sees_first: account a is cached at
(100, 0), a validator update sets it to (150, 0) and a fee burn of 5
follows in the same shard; the second record shows 145 liquid, reflecting
the first event's result rather than the pre-block 100. -/
theorem same_shard_second_event_sees_first_witness :
    ∃ st2,
      chunk_changes wOk
        ⟨0, [⟨.validatorAccountsUpdate, .accountUpdate ("a") ⟨150, 0⟩⟩],
          some [⟨("txh"), ⟨("a"), 5⟩⟩]⟩ bh0 stB =
        .ok (enumerate
          [validator_balance_change bh0 0 ("a") ⟨150, 0⟩
             .validatorAccountsUpdate (100, 0),
           transaction_balance_change bh0 0 ⟨("txh"), ⟨("a"), 5⟩⟩
             (150, 0)], st2) ∧
      (transaction_balance_change bh0 0 ⟨("txh"), ⟨("a"), 5⟩⟩
        (150, 0)).absolute_liquid_amount = ((150 : Nat) : Int) - ((5 : Nat) : Int) ∧
      (transaction_balance_change bh0 0 ⟨("txh"), ⟨("a"), 5⟩⟩
        (150, 0)).absolute_locked_amount = ((0 : Nat) : Int) :=
  same_shard_second_event_sees_first wOk bh0 0 ("a") ("txh") (100, 0)
    150 0 5 stB rfl (by decide) (by decide)

/-- The sub-batches submitted by chunked_insert flatten back to the input
batch: chunking is transport only. -/
lemma chunked_insert_flatten (w : World) (l : List BalanceChange) :
    ∀ bs, chunked_insert w l = .ok bs → bs.flatten = l := by
  induction l using chunked_insert.induct w with
  | case1 =>
    intro bs h
    simp only [chunked_insert, Except.ok.injEq] at h
    rw [← h]
    rfl
  | case2 c1 c2 c3 c4 c5 c6 c7 c8 c9 c10 rest e hdb =>
    intro bs h
    simp [chunked_insert, hdb] at h
  | case3 c1 c2 c3 c4 c5 c6 c7 c8 c9 c10 rest u hdb e hrec ih =>
    intro bs h
    simp [chunked_insert, hdb, hrec] at h
  | case4 c1 c2 c3 c4 c5 c6 c7 c8 c9 c10 rest u hdb bs2 hrec ih =>
    intro bs h
    simp only [chunked_insert, hdb, hrec, Except.ok.injEq] at h
    rw [← h]
    simp only [List.flatten_cons]
    rw [ih bs2 hrec]
    rfl
  | case5 l h1 h2 e hdb =>
    intro bs h
    rw [chunked_insert.eq_3 w l h1 h2, hdb] at h
    simp at h
  | case6 l h1 h2 u hdb =>
    intro bs h
    rw [chunked_insert.eq_3 w l h1 h2, hdb] at h
    simp only [Except.ok.injEq] at h
    rw [← h]
    simp

/-- C10: a shard whose chunk is absent skips the transaction-outcome
extractor entirely: given that the validator extractor succeeded and the
database accepted the sub-batches, the shard's processing succeeds, and
what was submitted is exactly the enumerated validator records. -/
theorem chunk_absent_processing (w : World) (shard : IndexerShard)
    (bh : BlockHeaderView) (st : CacheState) (vrecs : List BalanceChange)
    (st1 : CacheState) (bs : List (List BalanceChange))
    (hchunk : shard.chunk = none)
    (hv : store_validator_accounts_update_for_chunk w shard.state_changes bh
      shard.shard_id st = .ok (vrecs, st1))
    (hins : chunked_insert w (enumerate vrecs) = .ok bs) :
    store_changes_for_chunk w shard bh st = .ok (bs, st1) ∧
    bs.flatten = enumerate vrecs := by
  constructor
  · simp only [store_changes_for_chunk,
      chunk_changes_none w shard bh st vrecs st1 hchunk hv, hins]
  · exact chunked_insert_flatten w (enumerate vrecs) bs hins

/-- Witness for chunk_absent_processing: a chunkless shard with one
validator-update event is processed successfully and submits exactly its
one enumerated record. -/
theorem chunk_absent_processing_witness :
    ∃ vrecs st1 bs,
      store_changes_for_chunk wOk
        ⟨0, [⟨.validatorAccountsUpdate, .accountUpdate ("a") ⟨5, 7⟩⟩], none⟩
        bh0 st0 = .ok (bs, st1) ∧
      bs.flatten = enumerate vrecs :=
  ⟨_, _, _, chunk_absent_processing wOk
    ⟨0, [⟨.validatorAccountsUpdate, .accountUpdate ("a") ⟨5, 7⟩⟩], none⟩
    bh0 st0 _ _ _ rfl rfl rfl⟩

/-- C9: the block-level operation swallows no error and requires every
shard to succeed.  First conjunct: if the shards processed before s all
succeed and s fails (resolution failure, the panic, or a storage failure),
the whole block's processing fails with that error.  Second conjunct: if
the block's processing succeeds, then every shard in the list succeeded
at its reached state. -/
theorem block_failure_propagation :
    (∀ (w : World) (bh : BlockHeaderView) (st : CacheState)
        (l1 : List IndexerShard) (s : IndexerShard) (l2 : List IndexerShard)
        (bs1 : List (List BalanceChange)) (st1 : CacheState) (e : ProcError),
      store_balance_changes w l1 bh st = .ok (bs1, st1) →
      store_changes_for_chunk w s bh st1 = .error e →
      store_balance_changes w (l1 ++ s :: l2) bh st = .error e) ∧
    (∀ (w : World) (bh : BlockHeaderView) (st : CacheState)
        (l1 : List IndexerShard) (s : IndexerShard) (l2 : List IndexerShard)
        (bs : List (List BalanceChange)) (st2 : CacheState),
      store_balance_changes w (l1 ++ s :: l2) bh st = .ok (bs, st2) →
      ∃ bs1 st1 bs2 stx,
        store_balance_changes w l1 bh st = .ok (bs1, st1) ∧
        store_changes_for_chunk w s bh st1 = .ok (bs2, stx)) := by
  constructor
  · intro w bh st l1
    induction l1 generalizing st with
    | nil =>
      intro s l2 bs1 st1 e h herr
      simp only [store_balance_changes, Except.ok.injEq, Prod.mk.injEq] at h
      obtain ⟨h1, h2⟩ := h
      subst h2
      simp only [List.nil_append, store_balance_changes, herr]
    | cons sh l1 ih =>
      intro s l2 bs1 st1 e h herr
      simp only [store_balance_changes] at h
      cases hc : store_changes_for_chunk w sh bh st with
      | error e2 => rw [hc] at h; simp at h
      | ok p1 =>
        obtain ⟨b0, stx⟩ := p1
        rw [hc] at h
        simp only at h
        cases hr : store_balance_changes w l1 bh stx with
        | error e2 => rw [hr] at h; simp at h
        | ok p2 =>
          obtain ⟨bsr, str⟩ := p2
          rw [hr] at h
          simp only [Except.ok.injEq, Prod.mk.injEq] at h
          obtain ⟨hbs, hst⟩ := h
          subst hst
          have hprop := ih stx s l2 bsr str e hr herr
          simp only [List.cons_append, store_balance_changes, List.append_eq,
            hc, hprop]
  · intro w bh st l1
    induction l1 generalizing st with
    | nil =>
      intro s l2 bs st2 h
      simp only [List.nil_append, store_balance_changes] at h
      cases hc : store_changes_for_chunk w s bh st with
      | error e => rw [hc] at h; simp at h
      | ok p1 =>
        obtain ⟨b2, stx⟩ := p1
        exact ⟨[], st, b2, stx, rfl, hc⟩
    | cons sh l1 ih =>
      intro s l2 bs st2 h
      simp only [List.cons_append, store_balance_changes, List.append_eq] at h
      cases hc : store_changes_for_chunk w sh bh st with
      | error e => rw [hc] at h; simp at h
      | ok p1 =>
        obtain ⟨b0, stx⟩ := p1
        rw [hc] at h
        simp only at h
        cases hr : store_balance_changes w (l1 ++ s :: l2) bh stx with
        | error e => rw [hr] at h; simp at h
        | ok p2 =>
          obtain ⟨bsr, str⟩ := p2
          obtain ⟨bs1, st1, bs2, sty, hl1, hs⟩ := ih stx s l2 bsr str hr
          refine ⟨b0 ++ bs1, st1, bs2, sty, ?_, hs⟩
          simp only [store_balance_changes, hc, hl1]

/-- Witness for block_failure_propagation: a block whose single shard
carries a Migration-caused account update fails with the panic error, and a
block whose single shard carries a validator update succeeds with that
shard succeeding. -/
theorem block_failure_propagation_witness :
    store_balance_changes wOk
      (([] : List IndexerShard) ++
        ⟨0, [⟨.migration, .accountUpdate ("a") ⟨1, 2⟩⟩], none⟩ ::
        ([] : List IndexerShard)) bh0 st0 = .error .panicDebug ∧
    ∃ bs1 st1 bs2 stx,
      store_balance_changes wOk ([] : List IndexerShard) bh0 st0 =
        .ok (bs1, st1) ∧
      store_changes_for_chunk wOk
        ⟨0, [⟨.validatorAccountsUpdate, .accountUpdate ("a") ⟨5, 7⟩⟩], none⟩
        bh0 st1 = .ok (bs2, stx) :=
  ⟨block_failure_propagation.1 wOk bh0 st0 []
    ⟨0, [⟨.migration, .accountUpdate ("a") ⟨1, 2⟩⟩], none⟩ [] [] st0
    .panicDebug rfl rfl,
   block_failure_propagation.2 wOk bh0 st0 []
    ⟨0, [⟨.validatorAccountsUpdate, .accountUpdate ("a") ⟨5, 7⟩⟩], none⟩ []
    _ _ rfl⟩

lemma enumerateFrom_length (k : Nat) (l : List BalanceChange) :
    (enumerateFrom k l).length = l.length := by
  induction l generalizing k with
  | nil => rfl
  | cons c rest ih => simp [enumerateFrom, ih]

lemma enumerateFrom_map_index (k : Nat) (l : List BalanceChange) :
    (enumerateFrom k l).map (fun r => r.index_in_chunk) =
      (List.range' k l.length).map (fun i => wrapI32 i) := by
  induction l generalizing k with
  | nil => rfl
  | cons c rest ih =>
    simp only [enumerateFrom, List.map_cons, List.length_cons,
      List.range'_succ]
    rw [ih]

lemma wrapI32_small {n : Nat} (h : n < 2 ^ 31) : wrapI32 n = (n : Int) := by
  unfold wrapI32
  omega

/-- Index assignment over a batch of at most 2 ^ 31 records yields exactly
the positions 0, 1, ..., n-1 (the `as i32` cast does not wrap there). -/
lemma enumerate_map_index_small (l : List BalanceChange)
    (hl : l.length ≤ 2 ^ 31) :
    (enumerate l).map (fun r => r.index_in_chunk) =
      (List.range (enumerate l).length).map Int.ofNat := by
  rw [enumerate, enumerateFrom_map_index, enumerateFrom_length,
    List.range_eq_range']
  apply List.map_congr_left
  intro a ha
  rw [← List.range_eq_range'] at ha
  exact wrapI32_small (lt_of_lt_of_le (List.mem_range.mp ha) hl)

/-- C3 amended: for a shard whose output batch holds at most 2 ^ 31 records,
the indexInChunk values are exactly 0..n-1 in order, and the batch is the
enumeration of the validator-update records followed by the
transaction-outcome records, each group in source iteration order (the two
extractor runs are exhibited).  Beyond 2 ^ 31 records the `as i32` cast of
the position wraps. -/
theorem chunk_index_contiguous (w : World) (shard : IndexerShard)
    (bh : BlockHeaderView) (st : CacheState) (batch : List BalanceChange)
    (st2 : CacheState)
    (h : chunk_changes w shard bh st = .ok (batch, st2))
    (hlen : batch.length ≤ 2 ^ 31) :
    batch.map (fun r => r.index_in_chunk) =
      (List.range batch.length).map Int.ofNat ∧
    ∃ vrecs st1 trecs,
      store_validator_accounts_update_for_chunk w shard.state_changes bh
        shard.shard_id st = .ok (vrecs, st1) ∧
      ((shard.chunk = none ∧ trecs = [] ∧ st2 = st1) ∨
       (∃ txs, shard.chunk = some txs ∧
         store_transaction_execution_outcomes_for_chunk w txs bh
           shard.shard_id st1 = .ok (trecs, st2))) ∧
      batch = enumerate (vrecs ++ trecs) := by
  have hinv : ∃ vrecs st1 trecs,
      store_validator_accounts_update_for_chunk w shard.state_changes bh
        shard.shard_id st = .ok (vrecs, st1) ∧
      ((shard.chunk = none ∧ trecs = [] ∧ st2 = st1) ∨
       (∃ txs, shard.chunk = some txs ∧
         store_transaction_execution_outcomes_for_chunk w txs bh
           shard.shard_id st1 = .ok (trecs, st2))) ∧
      batch = enumerate (vrecs ++ trecs) := by
    simp only [chunk_changes] at h
    cases hv : store_validator_accounts_update_for_chunk w shard.state_changes
        bh shard.shard_id st with
    | error e => rw [hv] at h; simp at h
    | ok p1 =>
      obtain ⟨vrecs, st1⟩ := p1
      rw [hv] at h
      simp only at h
      cases hch : shard.chunk with
      | none =>
        rw [hch] at h
        simp only [Except.ok.injEq, Prod.mk.injEq] at h
        refine ⟨vrecs, st1, [], rfl, Or.inl ⟨rfl, rfl, h.2.symm⟩, ?_⟩
        rw [List.append_nil]
        exact h.1.symm
      | some txs =>
        rw [hch] at h
        simp only at h
        cases ht : store_transaction_execution_outcomes_for_chunk w txs bh
            shard.shard_id st1 with
        | error e => rw [ht] at h; simp at h
        | ok p2 =>
          obtain ⟨trecs, stx⟩ := p2
          rw [ht] at h
          simp only [Except.ok.injEq, Prod.mk.injEq] at h
          refine ⟨vrecs, st1, trecs, rfl, Or.inr ⟨txs, rfl, ?_⟩, h.1.symm⟩
          rw [← h.2]
          exact ht
  obtain ⟨vrecs, st1, trecs, hv, hdisj, hbatch⟩ := hinv
  refine ⟨?_, vrecs, st1, trecs, hv, hdisj, hbatch⟩
  have hlen2 : (vrecs ++ trecs).length ≤ 2 ^ 31 := by
    rw [hbatch, enumerate, enumerateFrom_length] at hlen
    exact hlen
  rw [hbatch]
  exact enumerate_map_index_small (vrecs ++ trecs) hlen2

/-- Witness for chunk_index_contiguous: a shard with one validator event and
one transaction produces a batch of two records indexed 0 and 1. -/
theorem chunk_index_contiguous_witness :
    ∃ batch st2,
      chunk_changes wOk
        ⟨0, [⟨.validatorAccountsUpdate, .accountUpdate ("a") ⟨5, 7⟩⟩],
          some [⟨("txh"), ⟨("a"), 5⟩⟩]⟩ bh0 st0 = .ok (batch, st2) ∧
      batch.map (fun r => r.index_in_chunk) =
        (List.range batch.length).map Int.ofNat :=
  ⟨_, _, rfl,
    (chunk_index_contiguous wOk
      ⟨0, [⟨.validatorAccountsUpdate, .accountUpdate ("a") ⟨5, 7⟩⟩],
        some [⟨("txh"), ⟨("a"), 5⟩⟩]⟩ bh0 st0 _ _ rfl (by decide)).1⟩

/-- A validator-accounts-update event fixture for account a. -/
def evA : StateChangeWithCauseView :=
  ⟨.validatorAccountsUpdate, .accountUpdate ("a") ⟨5, 7⟩⟩

/-- A cache state that is a fixed point of processing evA: account a is
already cached at (5, 7), the very balances evA sets. -/
def stFix : CacheState := { cache := [(("a"), ((5 : Nat), (7 : Nat)))], queries := [] }

/-- The record emitted for evA against the cached previous balances (5, 7). -/
def recA : BalanceChange :=
  validator_balance_change bh0 0 ("a") ⟨5, 7⟩ .validatorAccountsUpdate (5, 7)

/-- Processing n copies of evA from the fixed-point state emits n copies of
recA and leaves the state unchanged. -/
lemma replicate_validator_run (n : Nat) :
    store_validator_accounts_update_for_chunk wOk (List.replicate n evA)
      bh0 0 stFix = .ok (List.replicate n recA, stFix) := by
  induction n with
  | zero => rfl
  | succ n ih =>
    rw [List.replicate_succ]
    rw [validator_step wOk evA (List.replicate n evA) bh0 0 stFix ("a")
      ⟨5, 7⟩ (5, 7) stFix rfl rfl rfl]
    have hset : set_new_balances ("a")
        ((AccountView.mk 5 7).amount, (AccountView.mk 5 7).locked) stFix =
        stFix := rfl
    rw [hset, ih]
    rfl

/-- Counterexample to C3 as stated: a (semantically well-defined, physically
enormous) shard with 2 ^ 31 + 1 validator-update events produces a batch
whose indexInChunk values are not 0..n-1: the position is cast with
`as i32`, so the record at position 2 ^ 31 receives index -(2 ^ 31). -/
theorem chunk_index_contiguous_cex :
    ∃ batch st2,
      chunk_changes wOk ⟨0, List.replicate (2 ^ 31 + 1) evA, none⟩ bh0
        stFix = .ok (batch, st2) ∧
      batch.map (fun r => r.index_in_chunk) ≠
        (List.range batch.length).map Int.ofNat := by
  refine ⟨enumerate (List.replicate (2 ^ 31 + 1) recA), stFix, ?_, ?_⟩
  · exact chunk_changes_none wOk _ bh0 stFix _ _ rfl
      (replicate_validator_run (2 ^ 31 + 1))
  · intro heq
    have hlen : (enumerate (List.replicate (2 ^ 31 + 1) recA)).length =
        2 ^ 31 + 1 := by
      rw [enumerate, enumerateFrom_length, List.length_replicate]
    have hmap : (enumerate (List.replicate (2 ^ 31 + 1) recA)).map
        (fun r => r.index_in_chunk) =
        (List.range' 0 (2 ^ 31 + 1)).map (fun i => wrapI32 i) := by
      rw [enumerate, enumerateFrom_map_index, List.length_replicate]
    rw [hmap, hlen] at heq
    have h2 := congrArg (fun l => l[(2 ^ 31 : Nat)]?) heq
    simp only [List.getElem?_map] at h2
    rw [List.getElem?_range' 0 1 (by omega)] at h2
    rw [List.getElem?_range (by omega)] at h2
    simp only [Option.map_some'] at h2
    exact absurd (Option.some.inj h2) (by decide)

end IndexerBalances
